import Mathlib

/-!
Verification of `.github/workflows/scripts/extract_sct.py`.

The script scans text files line by line, keeps the lines that look like
real `sct_` command invocations, and prints them newline-joined or writes
them to an output file.  Strings are embedded as `List Char` (Python
strings are sequences of code points), a file as its list of lines
(without the trailing newline character, which the script's `rstrip`
removes from every collected line anyway), and the whole file system read
phase as a list of `Option` file contents, `none` standing for a file
that cannot be read.
-/

set_option autoImplicit false

/-- Python `str.isspace` on the ASCII whitespace characters, the set that
`str.lstrip()` / `str.rstrip()` strip.  (Python also strips some exotic
Unicode space code points; none of the properties below depend on those.) -/
def pyIsSpace (c : Char) : Bool :=
  c = ' ' || c = '\t' || c = '\n' || c = '\r' || c = '\x0b' || c = '\x0c'

/-- Python `line.lstrip()`. -/
def lstrip (s : List Char) : List Char :=
  s.dropWhile pyIsSpace

/-- Python `line.rstrip()`. -/
def rstrip (s : List Char) : List Char :=
  (s.reverse.dropWhile pyIsSpace).reverse

/-- The literal `"sct_"`, the target command-family marker. -/
def sctMarker : List Char := ['s', 'c', 't', '_']

/-- The literal `"# sct_"`: the two-character comment marker `"# "`
immediately followed by the command-family marker. -/
def hashSctMarker : List Char := ['#', ' ', 's', 'c', 't', '_']

/-- The literal `"sct_download_data"`. -/
def downloadDataMarker : List Char :=
  ['s', 'c', 't', '_', 'd', 'o', 'w', 'n', 'l', 'o', 'a', 'd', '_', 'd', 'a', 't', 'a']

/-- The literal `"sct_run_batch"`. -/
def runBatchMarker : List Char :=
  ['s', 'c', 't', '_', 'r', 'u', 'n', '_', 'b', 'a', 't', 'c', 'h']

/-- Python `stripped.split(" ")`: split on every single occurrence of the
space character, keeping empty fields (`"".split(" ") == [""]`,
`"a  b".split(" ") == ["a", "", "b"]`). -/
def splitOnSingleSpace : List Char → List (List Char)
  | [] => [[]]
  | c :: rest =>
    if c = ' ' then
      [] :: splitOnSingleSpace rest
    else
      match splitOnSingleSpace rest with
      | t :: ts => (c :: t) :: ts
      | [] => [[c]]

/-- Lines 12-13 of the script:
`if stripped.startswith("# sct_"): stripped = stripped[2:]`. -/
def stripCommentMarker (s : List Char) : List Char :=
  if hashSctMarker.isPrefixOf s then s.drop 2 else s

/-- The body of the inner loop of `extract_sct_commands` (lines 11-25):
left-strip the line, strip a `"# "` comment marker in front of `"sct_"`,
and collect the right-stripped line when the five-clause condition of the
`if` holds, `none` when the line is dropped. -/
def processLine (line : List Char) : Option (List Char) :=
  let stripped := lstrip line
  let stripped := stripCommentMarker stripped
  if sctMarker.isPrefixOf stripped
      && decide (3 ≤ (splitOnSingleSpace stripped).length)
      && !(stripped.contains '<' && stripped.contains '>')
      && !downloadDataMarker.isPrefixOf stripped
      && !runBatchMarker.isPrefixOf stripped
  then some (rstrip stripped) else none

/-- The inner `for line in f` loop: fold the lines of one file over the
mutable `results` accumulator, appending each collected line. -/
def extractFromFile (lines : List (List Char)) (results : List (List Char)) :
    List (List Char) :=
  lines.foldl
    (fun rs l =>
      match processLine l with
      | some r => rs ++ [r]
      | none => rs)
    results

/-- `extract_sct_commands` up to the point where `results` is complete
(lines 5-25): scan the files in the order given, starting from an empty
`results` list. -/
def extract_sct_commands (files : List (List (List Char))) : List (List Char) :=
  files.foldl (fun rs lines => extractFromFile lines rs) []

/-- The observable effect of one run: what is printed to standard output,
and which file is written with which content. -/
structure RunEffect where
  printed : Option (List Char)
  written : Option (List Char × List Char)
deriving DecidableEq

/-- Lines 27-30 of the script: `"\n".join(results)` is written to the
output file when `output` is truthy (Python `if output:` — `None` and the
empty string are falsy), and printed otherwise. -/
def runExtract (files : List (List (List Char))) (output : Option (List Char)) :
    RunEffect :=
  let joined := List.intercalate ['\n'] (extract_sct_commands files)
  match output with
  | some o => if o.isEmpty then ⟨some joined, none⟩ else ⟨none, some (o, joined)⟩
  | none => ⟨some joined, none⟩

/-- Sequential reading of the input files (line 9, `open(path, ...)`):
the first unreadable file raises, so the whole read phase yields `none`. -/
def readAllFiles : List (Option (List (List Char))) → Option (List (List (List Char)))
  | [] => some []
  | none :: _ => none
  | some f :: rest =>
    match readAllFiles rest with
    | some fs => some (f :: fs)
    | none => none

/-- The whole run over a file system in which some paths may be
unreadable: an exception escaping `extract_sct_commands` aborts the run
before anything is printed or written, so a failed read produces no
`RunEffect` at all. -/
def runWithReads (files : List (Option (List (List Char))))
    (output : Option (List Char)) : Option RunEffect :=
  match readAllFiles files with
  | some fs => some (runExtract fs output)
  | none => none

example : processLine ("sct_download_data -d t2".toList) = none := by decide
example : processLine ("  # sct_label_vertebrae -i t2.nii -s seg".toList)
    = some ("sct_label_vertebrae -i t2.nii -s seg".toList) := by decide
example : processLine ("sct_assert_code <cmd> x".toList) = none := by decide
example : processLine ("sct_slide Title".toList) = none := by decide
example : processLine ("sct_slide  ".toList) = some ("sct_slide".toList) := by decide

/-! ### Helper lemmas -/

theorem splitOnSingleSpace_ne_nil (s : List Char) : splitOnSingleSpace s ≠ [] := by
  cases s with
  | nil => simp [splitOnSingleSpace]
  | cons c rest =>
    unfold splitOnSingleSpace
    split
    · simp
    · cases h : splitOnSingleSpace rest <;> simp

theorem splitOnSingleSpace_length (s : List Char) :
    (splitOnSingleSpace s).length = s.count ' ' + 1 := by
  induction s with
  | nil => simp [splitOnSingleSpace]
  | cons c rest ih =>
    unfold splitOnSingleSpace
    by_cases hc : c = ' '
    · subst hc
      simp [List.count_cons, ih]
    · rw [if_neg hc]
      cases h : splitOnSingleSpace rest with
      | nil => exact absurd h (splitOnSingleSpace_ne_nil rest)
      | cons t ts =>
        have hlen := ih
        rw [h] at hlen
        simp only [List.length_cons] at hlen ⊢
        rw [List.count_cons]
        simp [hc, hlen]

theorem extractFromFile_eq (lines : List (List Char)) (results : List (List Char)) :
    extractFromFile lines results = results ++ lines.filterMap processLine := by
  induction lines generalizing results with
  | nil => simp [extractFromFile]
  | cons l ls ih =>
    unfold extractFromFile at ih ⊢
    rw [List.foldl_cons]
    cases h : processLine l <;>
      simp [h, List.filterMap_cons, ih]

theorem extract_foldl_eq (files : List (List (List Char))) (acc : List (List Char)) :
    files.foldl (fun rs lines => extractFromFile lines rs) acc
      = acc ++ (files.flatten).filterMap processLine := by
  induction files generalizing acc with
  | nil => simp
  | cons f fs ih =>
    rw [List.foldl_cons, ih, extractFromFile_eq]
    simp [List.filterMap_append]

/-! ### Claims -/

/-- C9: `split(" ")` keeps empty fields, so any normalized line with at
least two space characters passes the at-least-3-token test of
`processLine`, even a bare label followed by two spaces. -/
theorem two_spaces_pass_token_count (s : List Char) (h : 2 ≤ s.count ' ') :
    3 ≤ (splitOnSingleSpace s).length := by
  rw [splitOnSingleSpace_length]
  omega

/-- Witness for C9: `"sct_slide  "` (a bare label with two trailing
spaces) has two spaces, hence at least three fields; indeed the whole
line is collected by `processLine`. -/
theorem two_spaces_pass_token_count_witness :
    2 ≤ (("sct_slide  ".toList).count ' ')
    ∧ 3 ≤ (splitOnSingleSpace ("sct_slide  ".toList)).length
    ∧ processLine ("sct_slide  ".toList) = some ("sct_slide".toList) :=
  ⟨by decide, two_spaces_pass_token_count _ (by decide), by decide⟩

/-- C2: the lines produced by `extract_sct_commands` are exactly the
qualifying lines, in the order they are encountered scanning the files in
the order given, top to bottom within each file (`filterMap` over the
concatenation of all files), duplicates preserved. -/
theorem extract_preserves_scan_order (files : List (List (List Char))) :
    extract_sct_commands files = (files.flatten).filterMap processLine := by
  unfold extract_sct_commands
  rw [extract_foldl_eq]
  simp

/-- C1: a line is collected exactly when, after left-stripping and
comment-marker normalization, all five conditions hold: `sct_` prefix, at
least 3 single-space-separated tokens, not both `<` and `>`, not a
`sct_download_data` line, and not a `sct_run_batch` line. -/
theorem collected_iff_five_conditions (line : List Char) :
    (processLine line).isSome = true ↔
      (sctMarker.isPrefixOf (stripCommentMarker (lstrip line)) = true
        ∧ 3 ≤ (splitOnSingleSpace (stripCommentMarker (lstrip line))).length
        ∧ ¬('<' ∈ stripCommentMarker (lstrip line)
             ∧ '>' ∈ stripCommentMarker (lstrip line))
        ∧ downloadDataMarker.isPrefixOf (stripCommentMarker (lstrip line)) = false
        ∧ runBatchMarker.isPrefixOf (stripCommentMarker (lstrip line)) = false) := by
  have key : ∀ (b : Bool) (x : List Char),
      (if b = true then some x else none).isSome = b := by
    intro b x
    cases b <;> simp
  simp only [processLine, key]
  simp only [Bool.and_eq_true, Bool.not_eq_true', Bool.and_eq_false_iff,
    decide_eq_true_eq, List.elem_iff]
  constructor
  · rintro ⟨⟨⟨⟨h1, h2⟩, h3⟩, h4⟩, h5⟩
    refine ⟨h1, h2, ?_, h4, h5⟩
    rintro ⟨hlt, hgt⟩
    rcases h3 with h3 | h3 <;> simp_all [List.elem_iff]
  · rintro ⟨h1, h2, h3, h4, h5⟩
    refine ⟨⟨⟨⟨h1, h2⟩, ?_⟩, h4⟩, h5⟩
    by_cases hlt : '<' ∈ stripCommentMarker (lstrip line)
    · right
      simp only [List.contains_eq_any_beq, List.any_eq_false, beq_iff_eq]
      rintro c hc rfl
      exact h3 ⟨hlt, hc⟩
    · left
      simp only [List.contains_eq_any_beq, List.any_eq_false, beq_iff_eq]
      rintro c hc rfl
      exact hlt hc

theorem lstrip_cons_not_space (c : Char) (rest : List Char)
    (h : pyIsSpace c = false) : lstrip (c :: rest) = c :: rest := by
  simp [lstrip, List.dropWhile_cons, h]

theorem stripCommentMarker_hash_sct (t : List Char) :
    stripCommentMarker ('#' :: ' ' :: 's' :: 'c' :: 't' :: '_' :: t)
      = 's' :: 'c' :: 't' :: '_' :: t := by
  unfold stripCommentMarker
  rw [if_pos (show hashSctMarker.isPrefixOf
    ('#' :: ' ' :: 's' :: 'c' :: 't' :: '_' :: t) = true
    from List.isPrefixOf_iff_prefix.mpr ⟨t, rfl⟩)]
  rfl

theorem stripCommentMarker_sct (t : List Char) :
    stripCommentMarker ('s' :: 'c' :: 't' :: '_' :: t)
      = 's' :: 'c' :: 't' :: '_' :: t := by
  unfold stripCommentMarker
  rw [if_neg]
  intro h
  obtain ⟨u, hu⟩ := List.isPrefixOf_iff_prefix.mp h
  injection hu with h1 _
  exact absurd h1 (by decide)

/-- C3 counterexample: on the line `"  sct_a b c"` the collected result is
the left-stripped `"sct_a b c"`, not the original content right-trimmed
(which would keep the two leading spaces): leading whitespace is stripped
in the collected result as well, not only for testing the prefix. -/
theorem collected_not_original_counterexample :
    processLine ("  sct_a b c".toList) = some ("sct_a b c".toList)
    ∧ rstrip ("  sct_a b c".toList) = "  sct_a b c".toList
    ∧ ("sct_a b c".toList) ≠ ("  sct_a b c".toList) := by
  refine ⟨by decide, by decide, by decide⟩

/-- C3 amended: the collected result is the left-stripped,
comment-marker-normalized line trimmed of trailing whitespace — leading
whitespace (and a stripped `"# "` marker) are removed from the collected
result too, not only for the prefix tests. -/
theorem collected_is_rstrip_of_normalized (line r : List Char)
    (h : processLine line = some r) :
    r = rstrip (stripCommentMarker (lstrip line)) := by
  simp only [processLine] at h
  split at h
  · exact (Option.some.inj h).symm
  · exact Option.noConfusion h

/-- Witness for C3's amended theorem at the line `"  # sct_a b c"`. -/
theorem collected_is_rstrip_of_normalized_witness :
    processLine ("  # sct_a b c ".toList) = some ("sct_a b c".toList)
    ∧ "sct_a b c".toList
        = rstrip (stripCommentMarker (lstrip ("  # sct_a b c ".toList))) :=
  ⟨by decide, collected_is_rstrip_of_normalized _ _ (by decide)⟩

/-- C4: prefixing a line that starts with `"sct_"` by the two-character
comment marker `"# "` changes neither the inclusion decision nor the
collected result: `processLine` treats the commented and uncommented
lines identically. -/
theorem commented_line_equivalent (l : List Char)
    (h : sctMarker.isPrefixOf l = true) :
    processLine ('#' :: ' ' :: l) = processLine l := by
  obtain ⟨t, rfl⟩ := List.isPrefixOf_iff_prefix.mp h
  show processLine ('#' :: ' ' :: 's' :: 'c' :: 't' :: '_' :: t)
      = processLine ('s' :: 'c' :: 't' :: '_' :: t)
  simp only [processLine]
  rw [lstrip_cons_not_space '#' _ (by decide),
    lstrip_cons_not_space 's' _ (by decide),
    stripCommentMarker_hash_sct, stripCommentMarker_sct]

/-- Witness for C4 at the line `"sct_maths -i a -o b"`. -/
theorem commented_line_equivalent_witness :
    sctMarker.isPrefixOf ("sct_maths -i a -o b".toList) = true
    ∧ processLine ('#' :: ' ' :: "sct_maths -i a -o b".toList)
        = processLine ("sct_maths -i a -o b".toList) :=
  ⟨by decide, commented_line_equivalent _ (by decide)⟩

/-- C8: whenever the comment-marker normalization fires (the stripped line
starts with `"# sct_"`), it removes exactly the first two characters of
the whitespace-stripped line — `stripped[2:]` — and nothing else; the
decision looks only at the line itself (`stripCommentMarker` has no
file-type input at all, mirroring the script, which never inspects the
file type or that `"# "` is that file type's comment syntax). -/
theorem marker_strip_removes_exactly_two (s : List Char)
    (h : hashSctMarker.isPrefixOf s = true) :
    stripCommentMarker s = s.drop 2
    ∧ s = s.take 2 ++ stripCommentMarker s
    ∧ (stripCommentMarker s).length + 2 = s.length := by
  obtain ⟨t, rfl⟩ := List.isPrefixOf_iff_prefix.mp h
  have hrw : hashSctMarker ++ t = '#' :: ' ' :: 's' :: 'c' :: 't' :: '_' :: t := rfl
  rw [hrw, stripCommentMarker_hash_sct]
  refine ⟨rfl, rfl, by simp⟩

/-- Witness for C8 at the stripped line `"# sct_a b"`. -/
theorem marker_strip_removes_exactly_two_witness :
    hashSctMarker.isPrefixOf ("# sct_a b".toList) = true
    ∧ stripCommentMarker ("# sct_a b".toList) = ("# sct_a b".toList).drop 2
    ∧ "# sct_a b".toList
        = ("# sct_a b".toList).take 2 ++ stripCommentMarker ("# sct_a b".toList)
    ∧ (stripCommentMarker ("# sct_a b".toList)).length + 2
        = ("# sct_a b".toList).length :=
  ⟨by decide, marker_strip_removes_exactly_two _ (by decide)⟩

theorem readAllFiles_none (files : List (Option (List (List Char))))
    (h : none ∈ files) : readAllFiles files = none := by
  induction files with
  | nil => simp at h
  | cons f fs ih =>
    cases f with
    | none => rfl
    | some l =>
      have hm : none ∈ fs := by
        rcases List.mem_cons.mp h with h1 | h1
        · exact absurd h1 (by simp)
        · exact h1
      simp [readAllFiles, ih hm]

/-- C5: if any of the input files cannot be read, the run produces no
effect at all — nothing printed, no output file written, no partial
results from files read before the failure. -/
theorem failed_read_produces_no_output (files : List (Option (List (List Char))))
    (output : Option (List Char)) (h : none ∈ files) :
    runWithReads files output = none := by
  unfold runWithReads
  rw [readAllFiles_none files h]

/-- Witness for C5: a readable file with a collectable line followed by
an unreadable file still yields no effect. -/
theorem failed_read_produces_no_output_witness :
    none ∈ [some [("sct_maths -i a -o b".toList)], none]
    ∧ runWithReads [some [("sct_maths -i a -o b".toList)], none]
        (some ("out.txt".toList)) = none :=
  ⟨by decide, failed_read_produces_no_output _ _ (by decide)⟩

/-- C6: for any inputs and any non-empty output path, the content written
to the output file is exactly the newline-joined text that the same
inputs would print to standard output when no output path is given. -/
theorem written_content_matches_printed (files : List (List (List Char)))
    (p : List Char) (hp : p ≠ []) :
    ∃ c, (runExtract files (some p)).written = some (p, c)
      ∧ (runExtract files none).printed = some c := by
  refine ⟨List.intercalate ['\n'] (extract_sct_commands files), ?_, rfl⟩
  cases p with
  | nil => exact absurd rfl hp
  | cons a l => rfl

/-- Witness for C6 with one single-line file and the output path `"o"`. -/
theorem written_content_matches_printed_witness :
    ("o".toList ≠ ([] : List Char))
    ∧ ∃ c, (runExtract [[("sct_maths -i a -o b".toList)]]
              (some ("o".toList))).written = some ("o".toList, c)
        ∧ (runExtract [[("sct_maths -i a -o b".toList)]] none).printed = some c :=
  ⟨by decide, written_content_matches_printed _ _ (by decide)⟩

/-- C7 counterexample: with the empty string as the given output path,
the script prints to standard output and writes no file (Python
`if output:` treats `""` as false), contradicting the claim that any
given output path receives the written text with nothing printed. -/
theorem empty_path_given_but_prints :
    (runExtract [[("sct_maths -i a -o b".toList)]] (some [])).written = none
    ∧ (runExtract [[("sct_maths -i a -o b".toList)]] (some [])).printed
        = some ("sct_maths -i a -o b".toList) := by
  refine ⟨by decide, by decide⟩

/-- C7 amended: when a NON-EMPTY output path is given, the newline-joined
text is written to that file and nothing is printed; when no output path
is given, the joined text is printed and no file is written.  (The
amendment is forced by the empty-string path, which Python's truthiness
test sends to the print branch.) -/
theorem output_branch_behavior (files : List (List (List Char)))
    (p : List Char) (hp : p ≠ []) :
    (runExtract files (some p)).written
        = some (p, List.intercalate ['\n'] (extract_sct_commands files))
    ∧ (runExtract files (some p)).printed = none
    ∧ (runExtract files none).printed
        = some (List.intercalate ['\n'] (extract_sct_commands files))
    ∧ (runExtract files none).written = none := by
  cases p with
  | nil => exact absurd rfl hp
  | cons a l => exact ⟨rfl, rfl, rfl, rfl⟩

/-- Witness for C7's amended theorem with one single-line file and the
output path `"o"`. -/
theorem output_branch_behavior_witness :
    ("o".toList ≠ ([] : List Char))
    ∧ (runExtract [] (some ("o".toList))).written
        = some ("o".toList, List.intercalate ['\n'] (extract_sct_commands []))
    ∧ (runExtract [] (some ("o".toList))).printed = none
    ∧ (runExtract [] none).printed
        = some (List.intercalate ['\n'] (extract_sct_commands []))
    ∧ (runExtract [] none).written = none :=
  ⟨by decide, output_branch_behavior _ _ (by decide)⟩

/-- C10: the write-to-file branch is taken exactly for a non-empty output
path: with the empty string as output path nothing is written and the
joined text is printed, and the "printed, nothing written" behavior
characterizes the empty path among given paths. -/
theorem empty_output_path_prints (files : List (List (List Char)))
    (p : List Char) :
    ((runExtract files (some p)).written = none
      ∧ (runExtract files (some p)).printed
          = some (List.intercalate ['\n'] (extract_sct_commands files)))
    ↔ p = [] := by
  cases p with
  | nil => simp [runExtract]
  | cons a l => simp [runExtract]
